import Mathlib

/-!
Shallow embedding of `weatherskald.py` (class `WeatherSkald`).

The Python script is a linear pipeline: load a key/value configuration file,
fetch a weather forecast over HTTP, render it into a prompt for a chat
completion service, and synthesize the returned poem into an audio file
(hosted service or local voice-cloning model).  External collaborators
(the HTTP weather endpoint, the chat completion service, the two speech
synthesizers) are modelled as explicit oracle parameters; Python exceptions
are modelled by the `PyError` type and `Except`; the files written by a run
are collected in an explicit list.
-/

set_option autoImplicit false

/-- Python exception outcomes the script can raise. -/
inductive PyError where
  | fileNotFoundError
  | indexError
  | keyError (k : String)
  | networkError
  | upstreamError
  | modelLoadError
  deriving DecidableEq

/-- A Python `dict` with `String` keys and values, observed through lookup;
represented as the list of insertions, later insertions shadowing earlier
ones. -/
abbrev Dict := List (String × String)

/-- Lookup in a `Dict`: the value of the last insertion with the given key. -/
def dictGet (d : Dict) (k : String) : Option String :=
  d.foldl (fun acc p => if p.1 = k then some p.2 else acc) none

/-- Insertion into a `Dict` (`d[k] = v` in Python). -/
def dictInsert (d : Dict) (k v : String) : Dict := d ++ [(k, v)]

/-- Python `line.split(" ")`: cut the character list at every single space
character; adjacent spaces yield empty segments. -/
def splitOnSpaceAux : List Char → List Char → List (List Char)
  | [], acc => [acc.reverse]
  | c :: cs, acc =>
      if c = ' ' then acc.reverse :: splitOnSpaceAux cs []
      else splitOnSpaceAux cs (c :: acc)

/-- `s.split(" ")` on a whole string. -/
def pySplitSpace (s : String) : List (List Char) := splitOnSpaceAux s.data []

/-- Python `str.strip` for the newline character: remove newline characters
from both ends. -/
def stripNlChars (cs : List Char) : List Char :=
  ((cs.dropWhile (fun c => c = '\n')).reverse.dropWhile (fun c => c = '\n')).reverse

/-- One iteration of the configuration-reading loop (weatherskald.py lines
54-55): `larr = line.split(" ")`, key `larr[0]`, value `larr[1].strip` of the
newline; a line with no space raises `IndexError` at `larr[1]`. -/
def parseLine (line : String) : Except PyError (String × String) :=
  match pySplitSpace line with
  | k :: v :: _ => .ok (⟨k⟩, ⟨stripNlChars v⟩)
  | _ => .error .indexError

/-- The configuration-reading loop of `WeatherSkald.__init__`, over the list
of lines returned by `f.readlines()`. -/
def loadConfig : List String → Dict → Except PyError Dict
  | [], d => .ok d
  | l :: ls, d =>
    match parseLine l with
    | .error e => .error e
    | .ok kv => loadConfig ls (dictInsert d kv.1 kv.2)

/-- The persistent attributes of a `WeatherSkald` instance. -/
structure WeatherSkald where
  config : Dict
  outputfile : String
  deriving DecidableEq

/-- `WeatherSkald.__init__`: the configuration file is `none` when missing
(Python `open` raises `FileNotFoundError`) and otherwise the list of its
lines.  After the reading loop, constructing the OpenAI client evaluates
`self.config['openai_key']`, raising `KeyError` when absent. -/
def WeatherSkald.init (file : Option (List String)) (outputfile : String) :
    Except PyError WeatherSkald :=
  match file with
  | none => .error .fileNotFoundError
  | some lines =>
    match loadConfig lines [] with
    | .error e => .error e
    | .ok cfg =>
      match dictGet cfg "openai_key" with
      | none => .error (.keyError "openai_key")
      | some _ => .ok ⟨cfg, outputfile⟩

deriving instance DecidableEq for Except

/-- Whether an `Except` value is a success. -/
def isOkE {α : Type} (e : Except PyError α) : Bool :=
  match e with
  | .ok _ => true
  | .error _ => false

/-- One record of the `forecast.daily` array of the weather response; a JSON
field that may be absent is an `Option` (a missing field raises `KeyError`).
Scalar JSON values are modelled by their rendered text, which is all the
script uses them for. -/
structure JDay where
  month_num : Option String
  day_num : Option String
  conditions : Option String
  air_temp_high : Option String
  air_temp_low : Option String
  deriving DecidableEq

/-- The `current_conditions` object of the weather response. -/
structure JCC where
  air_temperature : Option String
  feels_like : Option String
  relative_humidity : Option String
  deriving DecidableEq

/-- The `forecast` object of the weather response. -/
structure JForecast where
  daily : Option (List JDay)
  deriving DecidableEq

/-- The decoded JSON body of the weather response. -/
structure JResp where
  current_conditions : Option JCC
  forecast : Option JForecast
  deriving DecidableEq

/-- Python `xs[i]` on a list: `IndexError` when out of range. -/
def listGet {α : Type} (xs : List α) (i : Nat) : Except PyError α :=
  match xs.get? i with
  | some a => .ok a
  | none => .error .indexError

/-- Python `self.config[k]`: `KeyError` when the key is absent. -/
def cfgGet (d : Dict) (k : String) : Except PyError String :=
  match dictGet d k with
  | some v => .ok v
  | none => .error (.keyError k)

/-- The URL built at line 71 of weatherskald.py.  The f-string interpolates
only the token; the station id is the literal `67295` in the URL text. -/
def fetchUrl (token : String) : String :=
  "https://swd.weatherflow.com/swd/rest/better_forecast?station_id=67295&units_temp=f&units_wind=mph&units_pressure=mmhg&units_precip=in&units_distance=mi&token="
    ++ token

/-- Lines 68-71 of `fetch_forecast`: read `weatherflow_token` and
`weatherflow_station_id` from the configuration (each read can raise
`KeyError`), then build the request URL.  The station id that was read is
not used by the URL, mirroring the source. -/
def fetchUrlOf (ws : WeatherSkald) : Except PyError String :=
  match cfgGet ws.config "weatherflow_token" with
  | .error e => .error e
  | .ok token =>
    match cfgGet ws.config "weatherflow_station_id" with
    | .error e => .error e
    | .ok _stationId => .ok (fetchUrl token)

/-- The current-conditions sentence built at line 76. -/
def headerStr (airT fl rh : String) : String :=
  "Air-Temp " ++ airT ++ "F (feels like " ++ fl ++ "F). " ++ rh ++ "% humidity"

/-- The text appended for one forecast day at line 81. -/
def dayStrPure (m d c hi lo : String) : String :=
  m ++ "/" ++ d ++ ": " ++ c ++ ", " ++ hi ++ "/" ++ lo ++ "F"

/-- The field reads of one forecast day at line 81, in evaluation order. -/
def dayStr (dfc : JDay) : Except PyError String :=
  match dfc.month_num, dfc.day_num, dfc.conditions, dfc.air_temp_high, dfc.air_temp_low with
  | none, _, _, _, _ => .error (.keyError "month_num")
  | some _, none, _, _, _ => .error (.keyError "day_num")
  | some _, some _, none, _, _ => .error (.keyError "conditions")
  | some _, some _, some _, none, _ => .error (.keyError "air_temp_high")
  | some _, some _, some _, some _, none => .error (.keyError "air_temp_low")
  | some m, some d, some c, some hi, some lo => .ok (dayStrPure m d c hi lo)

/-- The `for i in range(9)` loop of `fetch_forecast` (lines 79-81), over an
explicit list of indices: `dfcs[i]` can raise `IndexError`, the field reads
can raise `KeyError`, and each day's text is appended to the accumulator. -/
def forecastDays (dfcs : List JDay) : List Nat → String → Except PyError String
  | [], acc => .ok acc
  | i :: is, acc =>
    match listGet dfcs i with
    | .error e => .error e
    | .ok dfc =>
      match dayStr dfc with
      | .error e => .error e
      | .ok s => forecastDays dfcs is (acc ++ s)

/-- Lines 74-83 of `fetch_forecast`: destructure the decoded response and
build the forecast string.  Access order follows the source:
`current_conditions` (line 74), `forecast` then `daily` (line 75), the three
current-conditions fields (line 76), then the day loop. -/
def parseForecast (r : JResp) : Except PyError String :=
  match r.current_conditions with
  | none => .error (.keyError "current_conditions")
  | some cc =>
    match r.forecast with
    | none => .error (.keyError "forecast")
    | some fc =>
      match fc.daily with
      | none => .error (.keyError "daily")
      | some dfcs =>
        match cc.air_temperature, cc.feels_like, cc.relative_humidity with
        | none, _, _ => .error (.keyError "air_temperature")
        | some _, none, _ => .error (.keyError "feels_like")
        | some _, some _, none => .error (.keyError "relative_humidity")
        | some airT, some fl, some rh =>
          forecastDays dfcs (List.range 9) (headerStr airT fl rh)

/-- `WeatherSkald.fetch_forecast`.  The network interaction
(`requests.get` plus `response.json()`) is the oracle `net`: an error for a
transport or decoding failure, or the decoded body. -/
def fetch_forecast (ws : WeatherSkald) (net : Except PyError JResp) :
    Except PyError String :=
  match fetchUrlOf ws with
  | .error e => .error e
  | .ok _url =>
    match net with
    | .error e => .error e
    | .ok r => parseForecast r

/-- The prompt template of `weather_poem` (line 94). -/
def promptFor (data : String) : String :=
  "Write a paragraph describing the following weather in the style of a Viking skald: "
    ++ data

/-- `WeatherSkald.weather_poem`.  The chat completion call is the oracle
`chat`, mapping the user-message content to the list of returned choices
(their message contents); `choices[0]` raises `IndexError` when empty. -/
def weather_poem (ws : WeatherSkald) (net : Except PyError JResp)
    (chat : String → Except PyError (List String)) : Except PyError String :=
  match fetch_forecast ws net with
  | .error e => .error e
  | .ok data =>
    match chat (promptFor data) with
    | .error e => .error e
    | .ok choices => listGet choices 0

/-- A file written by a run: path and byte content. -/
structure FileWrite where
  path : String
  bytes : List Nat
  deriving DecidableEq

/-- `WeatherSkald.skald_weather`: hosted synthesis.  The speech call is the
oracle `tts` from the poem text to the audio bytes; on success the stream is
written to `self.outputfile + ".mp3"`.  The returned list holds the files
written by the call. -/
def skald_weather (ws : WeatherSkald) (net : Except PyError JResp)
    (chat : String → Except PyError (List String))
    (tts : String → Except PyError (List Nat)) :
    Except PyError Unit × List FileWrite :=
  let output_file_path := ws.outputfile ++ ".mp3"
  match weather_poem ws net chat with
  | .error e => (.error e, [])
  | .ok content =>
    match tts content with
    | .error e => (.error e, [])
    | .ok bytes => (.ok (), [⟨output_file_path, bytes⟩])

/-- The local voice-cloning model: poem text, speaker sample path and
language code to audio bytes (or a failure, e.g. unreadable speaker file). -/
abbrev LocalTts := String → String → String → Except PyError (List Nat)

/-- `WeatherSkald.skald_weather_local`: local synthesis.  `importsOk` models
whether `import torch` / `from TTS.api import TTS` succeed (lines 114-115);
`cudaAvailable` models `torch.cuda.is_available()`.  The output path is
`self.outputfile + ".mp3"` (line 122). -/
def skald_weather_local (ws : WeatherSkald) (net : Except PyError JResp)
    (chat : String → Except PyError (List String))
    (importsOk : Bool) (cudaAvailable : Bool) (ltts : LocalTts)
    (speakerfile : String) :
    Except PyError Unit × List FileWrite :=
  if importsOk then
    match weather_poem ws net chat with
    | .error e => (.error e, [])
    | .ok content =>
      let _device := if cudaAvailable then "cuda" else "cpu"
      match ltts content speakerfile "en" with
      | .error e => (.error e, [])
      | .ok bytes => (.ok (), [⟨ws.outputfile ++ ".mp3", bytes⟩])
  else (.error .modelLoadError, [])

/-- Process-level state: the instance attributes plus the filesystem writes
performed so far.  The method bodies contain no assignment to `self.config`
or `self.outputfile`, so the wrappers below thread the instance through
unchanged while recording file writes. -/
structure ProcState where
  ws : WeatherSkald
  files : List FileWrite
  deriving DecidableEq

/-- `fetch_forecast` as a step on the process state. -/
def run_fetch_forecast (s : ProcState) (net : Except PyError JResp) :
    Except PyError String × ProcState :=
  (fetch_forecast s.ws net, s)

/-- `weather_poem` as a step on the process state. -/
def run_weather_poem (s : ProcState) (net : Except PyError JResp)
    (chat : String → Except PyError (List String)) :
    Except PyError String × ProcState :=
  (weather_poem s.ws net chat, s)

/-- `skald_weather` as a step on the process state. -/
def run_skald_weather (s : ProcState) (net : Except PyError JResp)
    (chat : String → Except PyError (List String))
    (tts : String → Except PyError (List Nat)) :
    Except PyError Unit × ProcState :=
  let r := skald_weather s.ws net chat tts
  (r.1, ⟨s.ws, s.files ++ r.2⟩)

/-- `skald_weather_local` as a step on the process state. -/
def run_skald_weather_local (s : ProcState) (net : Except PyError JResp)
    (chat : String → Except PyError (List String))
    (importsOk : Bool) (cudaAvailable : Bool) (ltts : LocalTts)
    (speakerfile : String) :
    Except PyError Unit × ProcState :=
  let r := skald_weather_local s.ws net chat importsOk cudaAvailable ltts speakerfile
  (r.1, ⟨s.ws, s.files ++ r.2⟩)

/-- Remove a trailing run of newline characters. -/
def stripTrailNl (cs : List Char) : List Char :=
  (cs.reverse.dropWhile (fun c => c = '\n')).reverse

/-- Spec reading of one configuration line: split the line at its first
whitespace run; the key is the text before the run and the value is the full
remainder of the line after the run, trailing newline stripped; a line with
no whitespace is malformed. -/
def specParseLine (line : String) : Option (String × String) :=
  let cs := line.data
  let rest := cs.dropWhile (fun c => !c.isWhitespace)
  if rest.isEmpty then none
  else some (⟨cs.takeWhile (fun c => !c.isWhitespace)⟩,
    ⟨stripTrailNl (rest.dropWhile (fun c => c.isWhitespace))⟩)

/-- Spec reading of the whole configuration file. -/
def specLoadConfig : List String → Dict → Option Dict
  | [], d => some d
  | l :: ls, d =>
    match specParseLine l with
    | none => none
    | some kv => specLoadConfig ls (dictInsert d kv.1 kv.2)

/-- The character predicate the code actually splits with: not a single
space character (tabs and other whitespace do not separate). -/
def notSpace (c : Char) : Bool := decide (c ≠ ' ')

/-- Amended reading of one configuration line, matching the code: the line is
cut at single space characters; the key is the text before the first space,
the value is the text between the first and second spaces (or the end of the
line), newline characters stripped from its ends; a line with no space is
malformed. -/
def specParseLineAmended (line : String) : Option (String × String) :=
  let cs := line.data
  match cs.dropWhile notSpace with
  | [] => none
  | _ :: after =>
    some (⟨cs.takeWhile notSpace⟩, ⟨stripNlChars (after.takeWhile notSpace)⟩)

/-- Amended reading of the whole configuration file: each line as in
`specParseLineAmended`, later bindings of a key shadowing earlier ones. -/
def specLoadConfigAmended : List String → Dict → Option Dict
  | [], d => some d
  | l :: ls, d =>
    match specParseLineAmended l with
    | none => none
    | some kv => specLoadConfigAmended ls (dictInsert d kv.1 kv.2)

/-- View an optional result as the `Except` outcome of the reading loop,
a missing result being the `IndexError` of `larr[1]`. -/
def exOfOpt {α : Type} (o : Option α) : Except PyError α :=
  match o with
  | some a => .ok a
  | none => .error .indexError

/-- Whether `sub` occurs at the start of `hay`. -/
def startsWithL (hay sub : List Char) : Bool :=
  match sub with
  | [] => true
  | d :: ds =>
    match hay with
    | [] => false
    | c :: cs => decide (c = d) && startsWithL cs ds

/-- Whether `sub` occurs contiguously anywhere in `hay`. -/
def containsL : List Char → List Char → Bool
  | [], sub => startsWithL [] sub
  | c :: rest, sub => startsWithL (c :: rest) sub || containsL rest sub

theorem startsWithL_append (t r : List Char) : startsWithL (t ++ r) t = true := by
  induction t with
  | nil => simp [startsWithL]
  | cons c cs ih => simp [startsWithL, ih]

theorem containsL_of_startsWithL {hay sub : List Char}
    (h : startsWithL hay sub = true) : containsL hay sub = true := by
  cases hay <;> simp [containsL, h]

theorem containsL_cons {rest sub : List Char} (c : Char)
    (h : containsL rest sub = true) : containsL (c :: rest) sub = true := by
  simp [containsL, h]

theorem containsL_append_left {hay sub : List Char} (l : List Char)
    (h : containsL hay sub = true) : containsL (l ++ hay) sub = true := by
  induction l with
  | nil => simpa using h
  | cons c cs ih => exact containsL_cons c ih

theorem containsL_of_eq_append {hay sub l r : List Char}
    (h : hay = l ++ sub ++ r) : containsL hay sub = true := by
  subst h
  rw [List.append_assoc]
  exact containsL_append_left l (containsL_of_startsWithL (startsWithL_append sub r))

/-- Left-biased choice on options. -/
def optOr (o a : Option String) : Option String :=
  match o with
  | some v => some v
  | none => a

theorem optOr_none_right (o : Option String) : optOr o none = o := by
  cases o <;> rfl

theorem optOr_assoc (x y a : Option String) :
    optOr x (optOr y a) = optOr (optOr x y) a := by
  cases x <;> rfl

/-- The binding a single configuration line contributes for key `k`. -/
def lineVal (l k : String) : Option String :=
  match parseLine l with
  | .ok kv => if kv.1 = k then some kv.2 else none
  | .error _ => none

/-- Fold the bindings for key `k` over the lines, later lines shadowing,
starting from `a`. -/
def linesGetFrom (lines : List String) (k : String) (a : Option String) :
    Option String :=
  lines.foldl (fun acc l => optOr (lineVal l k) acc) a

/-- The value the configuration file binds to key `k` (the last line with
that key), if any. -/
def linesGet (lines : List String) (k : String) : Option String :=
  linesGetFrom lines k none

theorem linesGetFrom_eq (lines : List String) (k : String) : ∀ a,
    linesGetFrom lines k a = optOr (linesGet lines k) a := by
  induction lines with
  | nil => intro a; simp [linesGetFrom, linesGet, optOr]
  | cons l ls ih =>
    intro a
    have h1 : linesGetFrom (l :: ls) k a = linesGetFrom ls k (optOr (lineVal l k) a) := rfl
    have h2 : linesGet (l :: ls) k = linesGetFrom ls k (optOr (lineVal l k) none) := rfl
    rw [h1, h2, ih, ih (optOr (lineVal l k) none), optOr_assoc, optOr_assoc,
      optOr_none_right]

theorem linesGet_cons (l : String) (ls : List String) (k : String) :
    linesGet (l :: ls) k = optOr (linesGet ls k) (lineVal l k) := by
  have h2 : linesGet (l :: ls) k = linesGetFrom ls k (optOr (lineVal l k) none) := rfl
  rw [h2, linesGetFrom_eq, optOr_none_right]

theorem linesGet_append (xs ys : List String) (k : String) :
    linesGet (xs ++ ys) k = optOr (linesGet ys k) (linesGet xs k) := by
  have h : linesGet (xs ++ ys) k = linesGetFrom ys k (linesGetFrom xs k none) := by
    simp [linesGet, linesGetFrom, List.foldl_append]
  rw [h, linesGetFrom_eq]
  rfl

theorem linesGet_eq_none (lines : List String) (k : String)
    (h : ∀ l ∈ lines, lineVal l k = none) : linesGet lines k = none := by
  induction lines with
  | nil => rfl
  | cons l ls ih =>
    rw [linesGet_cons, h l (by simp),
      ih (fun x hx => h x (List.mem_cons_of_mem l hx))]
    rfl

theorem linesGet_ne_none_iff (lines : List String) (k : String) :
    linesGet lines k ≠ none ↔ ∃ l ∈ lines, lineVal l k ≠ none := by
  induction lines with
  | nil => simp [linesGet, linesGetFrom]
  | cons l ls ih =>
    rw [linesGet_cons]
    cases hv : lineVal l k with
    | none => simp [optOr_none_right, ih, hv]
    | some v =>
      constructor
      · intro _
        exact ⟨l, List.mem_cons_self l ls, by simp [hv]⟩
      · intro _
        cases hg : linesGet ls k <;> simp [optOr, hg]

theorem dictGet_insert (d : Dict) (k v k' : String) :
    dictGet (dictInsert d k v) k' = if k = k' then some v else dictGet d k' := by
  simp [dictGet, dictInsert, List.foldl_append]

theorem isOkE_iff {α : Type} (e : Except PyError α) :
    isOkE e = true ↔ ∃ a, e = .ok a := by
  cases e <;> simp [isOkE]

theorem loadConfig_isOk (lines : List String) : ∀ d,
    isOkE (loadConfig lines d) = lines.all (fun l => isOkE (parseLine l)) := by
  induction lines with
  | nil => intro d; rfl
  | cons l ls ih =>
    intro d
    cases hp : parseLine l with
    | error e => simp [loadConfig, hp, isOkE]
    | ok kv =>
      have hl : isOkE (parseLine l) = true := by rw [hp]; rfl
      calc isOkE (loadConfig (l :: ls) d)
          = isOkE (loadConfig ls (dictInsert d kv.1 kv.2)) := by
            simp only [loadConfig, hp]
        _ = ls.all (fun x => isOkE (parseLine x)) := ih _
        _ = (l :: ls).all (fun x => isOkE (parseLine x)) := by
            simp [List.all_cons, hl]

theorem loadConfig_get (lines : List String) : ∀ d d',
    loadConfig lines d = .ok d' →
    ∀ k, dictGet d' k = linesGetFrom lines k (dictGet d k) := by
  induction lines with
  | nil =>
    intro d d' h k
    cases h
    rfl
  | cons l ls ih =>
    intro d d' h k
    cases hp : parseLine l with
    | error e => simp [loadConfig, hp] at h
    | ok kv =>
      rw [loadConfig, hp] at h
      have h' : loadConfig ls (dictInsert d kv.1 kv.2) = .ok d' := h
      have step : linesGetFrom (l :: ls) k (dictGet d k)
          = linesGetFrom ls k (optOr (lineVal l k) (dictGet d k)) := rfl
      rw [step, ih (dictInsert d kv.1 kv.2) d' h' k]
      congr 1
      have hlv : lineVal l k = if kv.1 = k then some kv.2 else none := by
        simp only [lineVal, hp]
      rw [dictGet_insert, hlv]
      by_cases hk : kv.1 = k <;> simp [hk, optOr]

theorem loadConfig_get_nil (lines : List String) (cfg : Dict)
    (h : loadConfig lines [] = .ok cfg) (k : String) :
    dictGet cfg k = linesGet lines k :=
  loadConfig_get lines [] cfg h k

/-- Construction on an existing file succeeds exactly when every line has a
space and some line binds `openai_key`. -/
theorem init_ok_iff (lines : List String) (out : String) :
    (∃ ws, WeatherSkald.init (some lines) out = .ok ws) ↔
      (lines.all (fun l => isOkE (parseLine l)) = true ∧
        linesGet lines "openai_key" ≠ none) := by
  rw [WeatherSkald.init]
  cases h : loadConfig lines [] with
  | error e =>
    have hok : isOkE (loadConfig lines []) = false := by rw [h]; rfl
    rw [loadConfig_isOk] at hok
    simp [hok]
  | ok cfg =>
    have hok : isOkE (loadConfig lines []) = true := by rw [h]; rfl
    rw [loadConfig_isOk] at hok
    rw [← loadConfig_get_nil lines cfg h "openai_key"]
    cases hg : dictGet cfg "openai_key" <;> simp [hok, hg]

/-- The segments of a split after its first segment. -/
def tailSplit (cs : List Char) : List (List Char) :=
  match cs.dropWhile notSpace with
  | [] => []
  | _ :: rest => splitOnSpaceAux rest []

theorem splitOnSpaceAux_eq (cs : List Char) (acc : List Char) :
    splitOnSpaceAux cs acc =
      (acc.reverse ++ cs.takeWhile notSpace) :: tailSplit cs := by
  induction cs generalizing acc with
  | nil => simp [splitOnSpaceAux, tailSplit]
  | cons c cs ih =>
    by_cases hc : c = ' '
    · subst hc
      have h1 : notSpace ' ' = false := by decide
      simp [splitOnSpaceAux, tailSplit, h1, List.takeWhile_cons, List.dropWhile_cons]
    · have h1 : notSpace c = true := by simp [notSpace, hc]
      simp [splitOnSpaceAux, tailSplit, hc, h1, List.takeWhile_cons,
        List.dropWhile_cons, ih]

/-- Line-level refinement: the code's reading of one configuration line is
exactly the amended reading. -/
theorem parseLine_eq_amended (line : String) :
    parseLine line = exOfOpt (specParseLineAmended line) := by
  rw [parseLine, specParseLineAmended, pySplitSpace, splitOnSpaceAux_eq]
  cases hd : line.data.dropWhile notSpace with
  | nil =>
    simp only [tailSplit, hd]
    rfl
  | cons c after =>
    rw [show tailSplit line.data = splitOnSpaceAux after [] from by
      simp only [tailSplit, hd]]
    rw [splitOnSpaceAux_eq]
    rfl

/-- File-level refinement: the configuration-reading loop agrees with the
amended reading on every file. -/
theorem loadConfig_eq_amended (lines : List String) : ∀ d,
    loadConfig lines d = exOfOpt (specLoadConfigAmended lines d) := by
  induction lines with
  | nil => intro d; rfl
  | cons l ls ih =>
    intro d
    rw [loadConfig, specLoadConfigAmended, parseLine_eq_amended l]
    cases hl : specParseLineAmended l with
    | none => rfl
    | some kv => exact ih (dictInsert d kv.1 kv.2)

/-- Concatenation of a list of strings. -/
def strConcat : List String → String
  | [] => ""
  | s :: ss => s ++ strConcat ss

/-- Whether every field of a forecast-day record is present. -/
def dayComplete (d : JDay) : Bool :=
  d.month_num.isSome && d.day_num.isSome && d.conditions.isSome &&
    d.air_temp_high.isSome && d.air_temp_low.isSome

theorem listGet_ok {α : Type} {xs : List α} {i : Nat} {a : α} :
    listGet xs i = .ok a ↔ xs.get? i = some a := by
  unfold listGet
  cases h : xs.get? i <;> simp

theorem dayStr_ok_complete {dfc : JDay} {s : String} (h : dayStr dfc = .ok s) :
    dayComplete dfc = true := by
  rcases dfc with ⟨m, d, c, hi, lo⟩
  cases m <;> cases d <;> cases c <;> cases hi <;> cases lo <;>
    simp_all [dayStr, dayComplete]

/-- If the day loop succeeds then every visited index is in range and its
record is complete. -/
theorem forecastDays_ok (dfcs : List JDay) (is : List Nat) :
    ∀ acc s, forecastDays dfcs is acc = .ok s →
      ∀ i ∈ is, ∃ d, dfcs.get? i = some d ∧ dayComplete d = true := by
  induction is with
  | nil =>
    intro acc s _ i hi
    cases hi
  | cons j js ih =>
    intro acc s h i hi
    rw [forecastDays] at h
    cases hg : listGet dfcs j with
    | error e => simp only [hg] at h; cases h
    | ok dfc =>
      simp only [hg] at h
      cases hd : dayStr dfc with
      | error e => simp only [hd] at h; cases h
      | ok sd =>
        simp only [hd] at h
        rcases List.mem_cons.mp hi with rfl | hmem
        · exact ⟨dfc, listGet_ok.mp hg, dayStr_ok_complete hd⟩
        · exact ih (acc ++ sd) s h i hmem

/-- If every visited index has a complete record, the day loop returns the
accumulator followed by the summaries in order. -/
theorem forecastDays_val (dfcs : List JDay) (m dy cnd hi lo : Nat → String)
    (is : List Nat) :
    ∀ acc,
      (∀ i ∈ is, dfcs.get? i =
        some ⟨some (m i), some (dy i), some (cnd i), some (hi i), some (lo i)⟩) →
      forecastDays dfcs is acc =
        .ok (acc ++ strConcat (is.map
          (fun i => dayStrPure (m i) (dy i) (cnd i) (hi i) (lo i)))) := by
  induction is with
  | nil =>
    intro acc _
    simp [forecastDays, strConcat]
  | cons j js ih =>
    intro acc h
    have hj : listGet dfcs j =
        .ok ⟨some (m j), some (dy j), some (cnd j), some (hi j), some (lo j)⟩ :=
      listGet_ok.mpr (h j (List.mem_cons_self j js))
    have hd : dayStr ⟨some (m j), some (dy j), some (cnd j), some (hi j), some (lo j)⟩
        = .ok (dayStrPure (m j) (dy j) (cnd j) (hi j) (lo j)) := rfl
    rw [forecastDays]
    simp only [hj, hd]
    rw [ih (acc ++ dayStrPure (m j) (dy j) (cnd j) (hi j) (lo j))
      (fun i hmem => h i (List.mem_cons_of_mem j hmem))]
    have hassoc : acc ++ dayStrPure (m j) (dy j) (cnd j) (hi j) (lo j)
          ++ strConcat (js.map (fun i => dayStrPure (m i) (dy i) (cnd i) (hi i) (lo i)))
        = acc ++ strConcat ((j :: js).map
          (fun i => dayStrPure (m i) (dy i) (cnd i) (hi i) (lo i))) := by
      apply String.ext
      simp [strConcat, String.data_append, List.append_assoc]
    rw [hassoc]

/-- `t` occurs contiguously in `s`. -/
def SubS (t s : String) : Prop :=
  ∃ l r : List Char, s.data = l ++ t.data ++ r

theorem subS_refl (t : String) : SubS t t :=
  ⟨[], [], by simp⟩

theorem subS_appL {t b : String} (a : String) (h : SubS t b) : SubS t (a ++ b) := by
  rcases h with ⟨l, r, hr⟩
  exact ⟨a.data ++ l, r, by simp [String.data_append, hr, List.append_assoc]⟩

theorem subS_appR {t a : String} (b : String) (h : SubS t a) : SubS t (a ++ b) := by
  rcases h with ⟨l, r, hr⟩
  exact ⟨l, r ++ b.data, by simp [String.data_append, hr, List.append_assoc]⟩

theorem subS_trans {t u s : String} (h1 : SubS t u) (h2 : SubS u s) : SubS t s := by
  rcases h1 with ⟨l1, r1, hr1⟩
  rcases h2 with ⟨l2, r2, hr2⟩
  exact ⟨l2 ++ l1, r1 ++ r2, by simp [hr2, hr1, List.append_assoc]⟩

theorem subS_of_mem_strConcat {x : String} {L : List String} (hx : x ∈ L) :
    SubS x (strConcat L) := by
  induction L with
  | nil => cases hx
  | cons s ss ih =>
    rcases List.mem_cons.mp hx with rfl | hmem
    · exact subS_appR (strConcat ss) (subS_refl x)
    · exact subS_appL s (ih hmem)

theorem subS_containsL {t s : String} (h : SubS t s) :
    containsL s.data t.data = true := by
  rcases h with ⟨l, r, hr⟩
  exact containsL_of_eq_append hr

/-- A complete forecast-day record used as a concrete fixture. -/
def dayX : JDay := ⟨some "5", some "1", some "Clear", some "70", some "50"⟩

/-- A well-formed weather response fixture: complete current conditions and
nine complete daily records. -/
def respX : JResp :=
  ⟨some ⟨some "60", some "58", some "40"⟩, some ⟨some (List.replicate 9 dayX)⟩⟩

/-- A fully populated configuration fixture. -/
def cfgX : Dict :=
  [("weatherflow_token", "T"), ("weatherflow_station_id", "12345"), ("openai_key", "K")]

/-- A narrator fixture with the default output base name. -/
def wsX : WeatherSkald := ⟨cfgX, "skaldic_weather"⟩

/-- A chat oracle fixture that always returns one completion. -/
def chatX : String → Except PyError (List String) := fun _ => .ok ["A frost descends"]

/-- A hosted-synthesis oracle fixture. -/
def ttsX : String → Except PyError (List Nat) := fun _ => .ok [0, 1]

/-- A local-synthesis oracle fixture. -/
def lttsX : LocalTts := fun _ _ _ => .ok [2, 3]

/-- Claim C1: the spec says the GET request carries the station id S taken
from the stored configuration.  The code hardcodes station id 67295 in the
URL: for every configured station id the request URL is the same fixed URL,
which contains `station_id=67295` and, for the concrete configured station
id 12345, does not contain it.  The unit-preference parameters of the claim
are part of the fixed URL text. -/
theorem claim_C1_hardcoded_station (sid : String) :
    fetchUrlOf ⟨[("weatherflow_token", "T"), ("weatherflow_station_id", sid),
      ("openai_key", "K")], "out"⟩ = .ok (fetchUrl "T") ∧
    containsL (fetchUrl "T").data "station_id=67295".data = true ∧
    containsL (fetchUrl "T").data "units_temp=f".data = true ∧
    containsL (fetchUrl "T").data "units_wind=mph".data = true ∧
    containsL (fetchUrl "T").data "units_pressure=mmhg".data = true ∧
    containsL (fetchUrl "T").data "units_precip=in".data = true ∧
    containsL (fetchUrl "T").data "units_distance=mi".data = true ∧
    containsL (fetchUrl "T").data "12345".data = false := by
  exact ⟨rfl, by decide, by decide, by decide, by decide, by decide, by decide, by decide⟩

/-- Claim C2: the spec says the hosted and local paths write files with
different extensions.  In the code both write `<outputfile>.mp3`: with base
name `skaldic_weather` and succeeding oracles, both paths write the single
file `skaldic_weather.mp3`. -/
theorem claim_C2_same_extension :
    (skald_weather wsX (.ok respX) chatX ttsX).2 =
      [⟨"skaldic_weather.mp3", [0, 1]⟩] ∧
    (skald_weather_local wsX (.ok respX) chatX true false lttsX
      "weatherskald_default.wav").2 = [⟨"skaldic_weather.mp3", [2, 3]⟩] := by
  exact ⟨rfl, rfl⟩

/-- Claim C3, counterexample: on the line `key a b` the code stores value
`a` (the text between the first and second spaces), while the claim's
reading (text after the first whitespace run, spaces included) stores
`a b`. -/
theorem claim_C3_counterexample :
    loadConfig ["key a b"] [] = .ok [("key", "a")] ∧
    specLoadConfig ["key a b"] [] = some [("key", "a b")] ∧
    dictGet [("key", "a")] "key" ≠ dictGet [("key", "a b")] "key" := by
  exact ⟨rfl, rfl, by decide⟩

/-- Claim C3 (amended): loading a well-formed configuration file yields the
mapping that binds, for each line, the text before the first space to the
text between the first and second spaces (or the end of the line), newline
characters stripped — lines are cut at single space characters, not at
whitespace runs, and only the second field is kept. -/
theorem claim_C3_amended (lines : List String) :
    loadConfig lines [] = exOfOpt (specLoadConfigAmended lines []) :=
  loadConfig_eq_amended lines []

/-- Claim C4, counterexample: a configuration file with only the line
`openai_key K` lacks the weather-service token and the weather-station
identifier, yet construction succeeds, contradicting the claim that a
missing required key always fails construction. -/
theorem claim_C4_counterexample :
    WeatherSkald.init (some ["openai_key K"]) "out" =
      .ok ⟨[("openai_key", "K")], "out"⟩ ∧
    dictGet [("openai_key", "K")] "weatherflow_token" = none ∧
    dictGet [("openai_key", "K")] "weatherflow_station_id" = none := by
  exact ⟨rfl, rfl, rfl⟩

/-- Claim C4 (amended): construction fails exactly when the configuration
file is missing, when some line has no separating space, or when the
language-model API key `openai_key` is absent from the file; the
weather-service token and weather-station identifier are not checked at
construction.  (The failures are the underlying file-missing, index and key
errors; the script defines no dedicated ConfigurationError class.) -/
theorem claim_C4_amended (lines : List String) (out : String) :
    WeatherSkald.init none out = .error .fileNotFoundError ∧
    ((∃ ws, WeatherSkald.init (some lines) out = .ok ws) ↔
      ((∀ l ∈ lines, isOkE (parseLine l) = true) ∧
        (∃ l ∈ lines, lineVal l "openai_key" ≠ none))) := by
  constructor
  · rfl
  · rw [init_ok_iff, linesGet_ne_none_iff, List.all_eq_true]

/-- A weather response that lacks one of the fields the script reads, or
whose daily array is shorter than nine records (or has an incomplete record
among the first nine). -/
def badResp (r : JResp) : Prop :=
  r.current_conditions = none ∨
  (∃ cc, r.current_conditions = some cc ∧
    (cc.air_temperature = none ∨ cc.feels_like = none ∨ cc.relative_humidity = none)) ∨
  r.forecast = none ∨
  (∃ fc, r.forecast = some fc ∧ fc.daily = none) ∨
  (∃ fc dfcs, r.forecast = some fc ∧ fc.daily = some dfcs ∧
    (dfcs.length < 9 ∨ ∃ i, i < 9 ∧ ∃ d, dfcs.get? i = some d ∧ dayComplete d = false))

/-- Inversion: a successful fetch pins down every field the script reads. -/
theorem fetch_ok_inv {ws : WeatherSkald} {r : JResp} {s : String}
    (h : fetch_forecast ws (.ok r) = .ok s) :
    ∃ cc dfcs airT fl rh,
      r.current_conditions = some cc ∧
      (∃ fc, r.forecast = some fc ∧ fc.daily = some dfcs) ∧
      cc.air_temperature = some airT ∧ cc.feels_like = some fl ∧
      cc.relative_humidity = some rh ∧
      forecastDays dfcs (List.range 9) (headerStr airT fl rh) = .ok s := by
  rw [fetch_forecast] at h
  cases hu : fetchUrlOf ws with
  | error e => simp only [hu] at h; cases h
  | ok u =>
    simp only [hu] at h
    rw [parseForecast] at h
    cases hcc : r.current_conditions with
    | none => simp only [hcc] at h; cases h
    | some cc =>
      simp only [hcc] at h
      cases hfc : r.forecast with
      | none => simp only [hfc] at h; cases h
      | some fc =>
        simp only [hfc] at h
        cases hdy : fc.daily with
        | none => simp only [hdy] at h; cases h
        | some dfcs =>
          simp only [hdy] at h
          cases ha : cc.air_temperature with
          | none => simp only [ha] at h; cases h
          | some airT =>
            cases hb : cc.feels_like with
            | none => simp only [ha, hb] at h; cases h
            | some fl =>
              cases hc : cc.relative_humidity with
              | none => simp only [ha, hb, hc] at h; cases h
              | some rh =>
                simp only [ha, hb, hc] at h
                exact ⟨cc, dfcs, airT, fl, rh, rfl, ⟨fc, rfl, hdy⟩, ha, hb, hc, h⟩

/-- Claim C5: on a response that lacks an expected field or has fewer than
nine daily records, `fetch_forecast` fails with an error instead of
returning a (possibly truncated) forecast string. -/
theorem claim_C5_bad_response_fails (ws : WeatherSkald) (r : JResp)
    (hbad : badResp r) :
    ∃ e, fetch_forecast ws (.ok r) = .error e := by
  cases hf : fetch_forecast ws (.ok r) with
  | error e => exact ⟨e, rfl⟩
  | ok s =>
    exfalso
    rcases fetch_ok_inv hf with
      ⟨cc, dfcs, airT, fl, rh, hcc, ⟨fc, hfc, hdy⟩, ha, hb, hc, hfd⟩
    have hdays := forecastDays_ok dfcs (List.range 9) _ _ hfd
    rcases hbad with h | ⟨cc', hcc', hfld⟩ | h | ⟨fc', hfc', hd⟩ |
      ⟨fc', dfcs', hfc', hd', hrest⟩
    · rw [h] at hcc; cases hcc
    · rw [hcc] at hcc'
      injection hcc' with he
      subst he
      rcases hfld with h1 | h1 | h1
      · rw [h1] at ha; cases ha
      · rw [h1] at hb; cases hb
      · rw [h1] at hc; cases hc
    · rw [h] at hfc; cases hfc
    · rw [hfc] at hfc'
      injection hfc' with he
      subst he
      rw [hdy] at hd; cases hd
    · rw [hfc] at hfc'
      injection hfc' with he
      subst he
      rw [hdy] at hd'
      injection hd' with he2
      subst he2
      rcases hrest with hlen | ⟨i, hi9, d, hget, hcompl⟩
      · rcases hdays 8 (List.mem_range.mpr (by omega)) with ⟨d, hget8, _⟩
        have h8 : ¬ dfcs.length ≤ 8 := by
          intro hle
          rw [List.get?_len_le hle] at hget8
          cases hget8
        omega
      · rcases hdays i (List.mem_range.mpr hi9) with ⟨d', hget', hcompl'⟩
        rw [hget] at hget'
        injection hget' with he3
        subst he3
        simp [hcompl] at hcompl'

/-- Witness for claim C5 at a concrete deficient response: the empty
response object. -/
theorem claim_C5_witness :
    badResp ⟨none, none⟩ ∧ ∃ e, fetch_forecast wsX (.ok ⟨none, none⟩) = .error e :=
  ⟨Or.inl rfl, claim_C5_bad_response_fails wsX ⟨none, none⟩ (Or.inl rfl)⟩

theorem subS_airT_header (airT fl rh : String) : SubS airT (headerStr airT fl rh) := by
  show SubS airT
    ("Air-Temp " ++ airT ++ "F (feels like " ++ fl ++ "F). " ++ rh ++ "% humidity")
  exact subS_appR _ (subS_appR _ (subS_appR _ (subS_appR _
    (subS_appR _ (subS_appL _ (subS_refl _))))))

theorem subS_fl_header (airT fl rh : String) : SubS fl (headerStr airT fl rh) := by
  show SubS fl
    ("Air-Temp " ++ airT ++ "F (feels like " ++ fl ++ "F). " ++ rh ++ "% humidity")
  exact subS_appR _ (subS_appR _ (subS_appR _ (subS_appL _ (subS_refl _))))

theorem subS_rh_header (airT fl rh : String) : SubS rh (headerStr airT fl rh) := by
  show SubS rh
    ("Air-Temp " ++ airT ++ "F (feels like " ++ fl ++ "F). " ++ rh ++ "% humidity")
  exact subS_appR _ (subS_appL _ (subS_refl _))

theorem subS_m_day (m d c hig low : String) : SubS m (dayStrPure m d c hig low) := by
  show SubS m (m ++ "/" ++ d ++ ": " ++ c ++ ", " ++ hig ++ "/" ++ low ++ "F")
  exact subS_appR _ (subS_appR _ (subS_appR _ (subS_appR _ (subS_appR _
    (subS_appR _ (subS_appR _ (subS_appR _ (subS_appR _ (subS_refl _)))))))))

theorem subS_d_day (m d c hig low : String) : SubS d (dayStrPure m d c hig low) := by
  show SubS d (m ++ "/" ++ d ++ ": " ++ c ++ ", " ++ hig ++ "/" ++ low ++ "F")
  exact subS_appR _ (subS_appR _ (subS_appR _ (subS_appR _ (subS_appR _
    (subS_appR _ (subS_appR _ (subS_appL _ (subS_refl _))))))))

theorem subS_c_day (m d c hig low : String) : SubS c (dayStrPure m d c hig low) := by
  show SubS c (m ++ "/" ++ d ++ ": " ++ c ++ ", " ++ hig ++ "/" ++ low ++ "F")
  exact subS_appR _ (subS_appR _ (subS_appR _ (subS_appR _ (subS_appR _
    (subS_appL _ (subS_refl _))))))

theorem subS_hig_day (m d c hig low : String) : SubS hig (dayStrPure m d c hig low) := by
  show SubS hig (m ++ "/" ++ d ++ ": " ++ c ++ ", " ++ hig ++ "/" ++ low ++ "F")
  exact subS_appR _ (subS_appR _ (subS_appR _ (subS_appL _ (subS_refl _))))

theorem subS_low_day (m d c hig low : String) : SubS low (dayStrPure m d c hig low) := by
  show SubS low (m ++ "/" ++ d ++ ": " ++ c ++ ", " ++ hig ++ "/" ++ low ++ "F")
  exact subS_appR _ (subS_appL _ (subS_refl _))

/-- Claim C6: on a response with a complete current-conditions record and at
least nine complete daily records, `fetch_forecast` returns the header
containing the current temperature, perceived temperature and humidity
verbatim, followed by exactly nine day summaries, each containing that day's
month, day, condition label and high/low temperatures verbatim. -/
theorem claim_C6_good_response (ws : WeatherSkald) (tok sid : String) (r : JResp)
    (airT fl rh : String) (dfcs : List JDay) (m dy cnd hig low : Nat → String)
    (htok : dictGet ws.config "weatherflow_token" = some tok)
    (hsid : dictGet ws.config "weatherflow_station_id" = some sid)
    (hcc : r.current_conditions = some ⟨some airT, some fl, some rh⟩)
    (hfc : r.forecast = some ⟨some dfcs⟩)
    (hdays : ∀ i, i < 9 → dfcs.get? i =
      some ⟨some (m i), some (dy i), some (cnd i), some (hig i), some (low i)⟩) :
    ∃ s, fetch_forecast ws (.ok r) = .ok s ∧
      s = headerStr airT fl rh ++ strConcat ((List.range 9).map
        (fun i => dayStrPure (m i) (dy i) (cnd i) (hig i) (low i))) ∧
      containsL s.data airT.data = true ∧
      containsL s.data fl.data = true ∧
      containsL s.data rh.data = true ∧
      (∀ i, i < 9 →
        containsL s.data (dayStrPure (m i) (dy i) (cnd i) (hig i) (low i)).data = true ∧
        containsL (dayStrPure (m i) (dy i) (cnd i) (hig i) (low i)).data (m i).data = true ∧
        containsL (dayStrPure (m i) (dy i) (cnd i) (hig i) (low i)).data (dy i).data = true ∧
        containsL (dayStrPure (m i) (dy i) (cnd i) (hig i) (low i)).data (cnd i).data = true ∧
        containsL (dayStrPure (m i) (dy i) (cnd i) (hig i) (low i)).data (hig i).data = true ∧
        containsL (dayStrPure (m i) (dy i) (cnd i) (hig i) (low i)).data (low i).data = true) := by
  have h1 : fetchUrlOf ws = .ok (fetchUrl tok) := by
    rw [fetchUrlOf]
    simp only [cfgGet, htok, hsid]
  have h4 : forecastDays dfcs (List.range 9) (headerStr airT fl rh) =
      .ok (headerStr airT fl rh ++ strConcat ((List.range 9).map
        (fun i => dayStrPure (m i) (dy i) (cnd i) (hig i) (low i)))) :=
    forecastDays_val dfcs m dy cnd hig low (List.range 9) (headerStr airT fl rh)
      (fun i hmem => hdays i (List.mem_range.mp hmem))
  have h2 : fetch_forecast ws (.ok r) =
      .ok (headerStr airT fl rh ++ strConcat ((List.range 9).map
        (fun i => dayStrPure (m i) (dy i) (cnd i) (hig i) (low i)))) := by
    rw [fetch_forecast]
    simp only [h1]
    rw [parseForecast]
    simp only [hcc, hfc]
    exact h4
  refine ⟨_, h2, rfl, ?_, ?_, ?_, ?_⟩
  · exact subS_containsL (subS_appR _ (subS_airT_header airT fl rh))
  · exact subS_containsL (subS_appR _ (subS_fl_header airT fl rh))
  · exact subS_containsL (subS_appR _ (subS_rh_header airT fl rh))
  · intro i hilt
    have hmem : dayStrPure (m i) (dy i) (cnd i) (hig i) (low i) ∈
        (List.range 9).map (fun j => dayStrPure (m j) (dy j) (cnd j) (hig j) (low j)) :=
      List.mem_map_of_mem _ (List.mem_range.mpr hilt)
    refine ⟨?_, ?_, ?_, ?_, ?_, ?_⟩
    · exact subS_containsL (subS_appL _ (subS_of_mem_strConcat hmem))
    · exact subS_containsL (subS_m_day _ _ _ _ _)
    · exact subS_containsL (subS_d_day _ _ _ _ _)
    · exact subS_containsL (subS_c_day _ _ _ _ _)
    · exact subS_containsL (subS_hig_day _ _ _ _ _)
    · exact subS_containsL (subS_low_day _ _ _ _ _)

/-- Witness for claim C6 at the concrete fixtures. -/
theorem claim_C6_witness :
    ∃ s, fetch_forecast wsX (.ok respX) = .ok s ∧
      s = headerStr "60" "58" "40" ++ strConcat ((List.range 9).map
        (fun _ => dayStrPure "5" "1" "Clear" "70" "50")) ∧
      containsL s.data "60".data = true ∧
      containsL s.data "58".data = true ∧
      containsL s.data "40".data = true ∧
      (∀ i, i < 9 →
        containsL s.data (dayStrPure "5" "1" "Clear" "70" "50").data = true ∧
        containsL (dayStrPure "5" "1" "Clear" "70" "50").data "5".data = true ∧
        containsL (dayStrPure "5" "1" "Clear" "70" "50").data "1".data = true ∧
        containsL (dayStrPure "5" "1" "Clear" "70" "50").data "Clear".data = true ∧
        containsL (dayStrPure "5" "1" "Clear" "70" "50").data "70".data = true ∧
        containsL (dayStrPure "5" "1" "Clear" "70" "50").data "50".data = true) :=
  claim_C6_good_response wsX "T" "12345" respX "60" "58" "40"
    (List.replicate 9 dayX) (fun _ => "5") (fun _ => "1") (fun _ => "Clear")
    (fun _ => "70") (fun _ => "50") rfl rfl rfl rfl (by decide)

/-- Claim C7: a failure in any pipeline stage skips the remaining stages,
surfaces the originating error to the caller unchanged, and writes no audio
file: a poem-stage error aborts both synthesis paths with that error and no
file write; a synthesis-stage error aborts with that error and no file
write; a failing local-model import aborts before any write. -/
theorem claim_C7_pipeline_aborts (ws : WeatherSkald) (net : Except PyError JResp)
    (chat : String → Except PyError (List String))
    (tts : String → Except PyError (List Nat)) (ltts : LocalTts)
    (cuda : Bool) (spk : String) :
    (∀ e, weather_poem ws net chat = .error e →
      skald_weather ws net chat tts = (.error e, []) ∧
      skald_weather_local ws net chat true cuda ltts spk = (.error e, [])) ∧
    (∀ p e, weather_poem ws net chat = .ok p → tts p = .error e →
      skald_weather ws net chat tts = (.error e, [])) ∧
    (∀ p e, weather_poem ws net chat = .ok p → ltts p spk "en" = .error e →
      skald_weather_local ws net chat true cuda ltts spk = (.error e, [])) ∧
    skald_weather_local ws net chat false cuda ltts spk =
      (.error .modelLoadError, []) := by
  refine ⟨?_, ?_, ?_, ?_⟩
  · intro e he
    constructor
    · rw [skald_weather]
      simp only [he]
    · rw [skald_weather_local]
      simp only [he, if_true]
  · intro p e hp he
    rw [skald_weather]
    simp only [hp, he]
  · intro p e hp he
    rw [skald_weather_local]
    simp only [hp, he, if_true]
  · rfl

/-- Witness for claim C7: with a failing network the hosted and local paths
both surface the network error and write nothing. -/
theorem claim_C7_witness :
    skald_weather wsX (.error .networkError) chatX ttsX =
      (.error .networkError, []) ∧
    skald_weather_local wsX (.error .networkError) chatX true false lttsX
      "weatherskald_default.wav" = (.error .networkError, []) :=
  (claim_C7_pipeline_aborts wsX (.error .networkError) chatX ttsX lttsX false
    "weatherskald_default.wav").1 .networkError rfl

/-- Claim C8: every public operation leaves the configuration mapping and
the stored output base name unchanged, for every starting state (file writes
are the only state change a run makes). -/
theorem claim_C8_config_immutable (s : ProcState) (net : Except PyError JResp)
    (chat : String → Except PyError (List String))
    (tts : String → Except PyError (List Nat)) (ltts : LocalTts)
    (importsOk cuda : Bool) (spk : String) :
    ((run_fetch_forecast s net).2.ws.config = s.ws.config ∧
      (run_fetch_forecast s net).2.ws.outputfile = s.ws.outputfile) ∧
    ((run_weather_poem s net chat).2.ws.config = s.ws.config ∧
      (run_weather_poem s net chat).2.ws.outputfile = s.ws.outputfile) ∧
    ((run_skald_weather s net chat tts).2.ws.config = s.ws.config ∧
      (run_skald_weather s net chat tts).2.ws.outputfile = s.ws.outputfile) ∧
    ((run_skald_weather_local s net chat importsOk cuda ltts spk).2.ws.config
        = s.ws.config ∧
      (run_skald_weather_local s net chat importsOk cuda ltts spk).2.ws.outputfile
        = s.ws.outputfile) :=
  ⟨⟨rfl, rfl⟩, ⟨rfl, rfl⟩, ⟨rfl, rfl⟩, ⟨rfl, rfl⟩⟩

/-- Claim C9: when the configuration file binds the same key on several
lines, construction succeeds and the mapping binds the key to the value of
the last such line. -/
theorem claim_C9_last_duplicate_wins (pre post : List String)
    (line out k v : String)
    (hline : parseLine line = .ok (k, v))
    (hpost : ∀ l ∈ post, lineVal l k = none)
    (hall : ∀ l ∈ pre ++ line :: post, isOkE (parseLine l) = true)
    (hkey : ∃ l ∈ pre ++ line :: post, lineVal l "openai_key" ≠ none) :
    ∃ ws, WeatherSkald.init (some (pre ++ line :: post)) out = .ok ws ∧
      dictGet ws.config k = some v := by
  have hex : ∃ ws, WeatherSkald.init (some (pre ++ line :: post)) out = .ok ws := by
    rw [init_ok_iff, linesGet_ne_none_iff, List.all_eq_true]
    exact ⟨hall, hkey⟩
  rcases hex with ⟨ws, hws⟩
  refine ⟨ws, hws, ?_⟩
  rw [WeatherSkald.init] at hws
  cases hl : loadConfig (pre ++ line :: post) [] with
  | error e => simp only [hl] at hws; cases hws
  | ok cfg =>
    simp only [hl] at hws
    cases hk : dictGet cfg "openai_key" with
    | none => simp only [hk] at hws; cases hws
    | some x =>
      simp only [hk] at hws
      injection hws with hws'
      have hcfg : ws.config = cfg := by rw [← hws']
      rw [hcfg, loadConfig_get_nil (pre ++ line :: post) cfg hl k,
        linesGet_append, linesGet_cons, linesGet_eq_none post k hpost]
      have hlv : lineVal line k = some v := by
        simp only [lineVal, hline]
        simp
      rw [hlv]
      rfl

/-- Witness for claim C9: two `openai_key` lines; the mapping holds the
value of the second. -/
theorem claim_C9_witness :
    ∃ ws, WeatherSkald.init (some ["openai_key A", "openai_key B"]) "out" = .ok ws ∧
      dictGet ws.config "openai_key" = some "B" :=
  claim_C9_last_duplicate_wins ["openai_key A"] [] "openai_key B" "out"
    "openai_key" "B" rfl (by simp) (by decide)
    ⟨"openai_key B", by simp, by decide⟩

/-- Claim C10: construction checks only the language-model API key: a
parseable file containing `openai_key` constructs successfully even without
the weatherflow keys, and a missing `weatherflow_token` or
`weatherflow_station_id` surfaces as the corresponding key error only when
`fetch_forecast` is called, whatever the network would have answered. -/
theorem claim_C10_only_openai_checked (lines : List String) (out : String)
    (hall : ∀ l ∈ lines, isOkE (parseLine l) = true)
    (hkey : ∃ l ∈ lines, lineVal l "openai_key" ≠ none) :
    ∃ ws, WeatherSkald.init (some lines) out = .ok ws ∧
      (dictGet ws.config "weatherflow_token" = none →
        ∀ net, fetch_forecast ws net = .error (.keyError "weatherflow_token")) ∧
      (∀ tok, dictGet ws.config "weatherflow_token" = some tok →
        dictGet ws.config "weatherflow_station_id" = none →
        ∀ net, fetch_forecast ws net = .error (.keyError "weatherflow_station_id")) := by
  have hex : ∃ ws, WeatherSkald.init (some lines) out = .ok ws := by
    rw [init_ok_iff, linesGet_ne_none_iff, List.all_eq_true]
    exact ⟨hall, hkey⟩
  rcases hex with ⟨ws, hws⟩
  refine ⟨ws, hws, ?_, ?_⟩
  · intro htok net
    rw [fetch_forecast.eq_def, fetchUrlOf]
    simp only [cfgGet, htok]
  · intro tok htok hsid net
    rw [fetch_forecast.eq_def, fetchUrlOf]
    simp only [cfgGet, htok, hsid]

/-- Witness for claim C10: the one-line file `openai_key K` constructs, and
fetching fails with the token key error. -/
theorem claim_C10_witness :
    ∃ ws, WeatherSkald.init (some ["openai_key K"]) "out" = .ok ws ∧
      (dictGet ws.config "weatherflow_token" = none →
        ∀ net, fetch_forecast ws net = .error (.keyError "weatherflow_token")) ∧
      (∀ tok, dictGet ws.config "weatherflow_token" = some tok →
        dictGet ws.config "weatherflow_station_id" = none →
        ∀ net, fetch_forecast ws net = .error (.keyError "weatherflow_station_id")) :=
  claim_C10_only_openai_checked ["openai_key K"] "out" (by decide)
    ⟨"openai_key K", by simp, by decide⟩
